import Mathlib

/-!
Verification development for the Envision annotation engine and image
filter pipeline.  The definitions below are shallow embeddings of the
JavaScript source: React state updates become explicit state passing,
JS numbers are modelled by `ℚ`/`ℤ`/`ℕ` (exact arithmetic), and the
`Uint8ClampedArray` / `Math.round` / `toFixed` store semantics are
modelled explicitly.
-/

namespace Envision

/-- A 2-D canvas point (fabric.js pointer coordinates), with exact
rational coordinates standing in for JS numbers. -/
structure Point where
  x : ℚ
  y : ℚ
deriving DecidableEq

/-- The style record shared by the toolbar (`annotationStyles`) and the
wrapper (`currentStyles`): `{textSize, textColor, lineColor, lineWidth,
arrowSize, dimensionPrecision}`. -/
structure Styles where
  textSize : ℕ
  textColor : String
  lineColor : String
  lineWidth : ℕ
  arrowSize : ℕ
  dimensionPrecision : ℕ
deriving DecidableEq

/-- The default style record, identical in `AnnotationWrapper.js`
(`currentStyles` initial state) and the toolbar (`annotationStyles`). -/
def defaultStyles : Styles :=
  { textSize := 12, textColor := "#000000", lineColor := "#FF0000",
    lineWidth := 2, arrowSize := 8, dimensionPrecision := 2 }

/-- Geometry payload (`data` field) of an annotation record, one case per
factory in `AnnotationCanvas` (part_004).  `distance` of a dimension is
the value of `Math.sqrt(...)`, modelled in exact real arithmetic. -/
inductive AnnData where
  | dimension (start stop : Point) (distance : ℝ)
  | circle (center : Point) (radius : ℚ)
  | leader (point : Point)
  | centerline (start stop : Point)
  | cloud (points : List Point)
  | hatch (point : Point) (size : ℚ)

/-- An annotation record `{id, type, tool, objects, data, styles}` as
built by the factories in `AnnotationCanvas`.  `id` is the value of
`Date.now()` at creation (a number); `objects` holds the identities of
the fabric objects created for the record. -/
structure AnnotationRecord where
  id : ℕ
  type : String
  tool : String
  objects : List ℕ
  data : AnnData
  styles : Styles

/-- JS `Array.prototype.slice(0, e)` where `e` may be negative (counts
from the end) — the exact semantics of `history.slice(0, historyIndex + 1)`. -/
def jsSlice0 {α : Type} (l : List α) (e : ℤ) : List α :=
  if e < 0 then l.take (l.length + e).toNat else l.take e.toNat

/-- The `AnnotationWrapper` component state relevant to the history
engine: `annotations`, `annotationHistory`, `historyIndex`. -/
structure WrapperState where
  annotations : List AnnotationRecord
  annotationHistory : List (List AnnotationRecord)
  historyIndex : ℤ

/-- Initial wrapper state with `initialAnnotations = []`: the
history-initialisation effect does not fire (it requires
`initialAnnotations.length > 0`), so the history stays `[]` and the
pointer stays `-1`. -/
def initialWrapperState : WrapperState :=
  { annotations := [], annotationHistory := [], historyIndex := -1 }

/-- `handleAnnotationAdd`: appends the annotation, truncates the history
after the pointer (`slice(0, historyIndex + 1)`), pushes the new
snapshot and moves the pointer to `newHistory.length - 1`. -/
def handleAnnotationAdd (a : AnnotationRecord) (s : WrapperState) : WrapperState :=
  let newAnnotations := s.annotations ++ [a]
  let newHistory := jsSlice0 s.annotationHistory (s.historyIndex + 1) ++ [newAnnotations]
  { annotations := newAnnotations,
    annotationHistory := newHistory,
    historyIndex := (newHistory.length : ℤ) - 1 }

/-- `handleAnnotationUpdate`: replaces the record whose `id` matches and
pushes a history snapshot exactly like `handleAnnotationAdd`. -/
def handleAnnotationUpdate (annotationId : ℕ) (updated : AnnotationRecord)
    (s : WrapperState) : WrapperState :=
  let newAnnotations := s.annotations.map fun ann =>
    if ann.id = annotationId then updated else ann
  let newHistory := jsSlice0 s.annotationHistory (s.historyIndex + 1) ++ [newAnnotations]
  { annotations := newAnnotations,
    annotationHistory := newHistory,
    historyIndex := (newHistory.length : ℤ) - 1 }

/-- `handleAnnotationDelete`: filters out the record whose `id` matches
and pushes a history snapshot exactly like `handleAnnotationAdd`. -/
def handleAnnotationDelete (annotationId : ℕ) (s : WrapperState) : WrapperState :=
  let newAnnotations := s.annotations.filter fun ann => ann.id ≠ annotationId
  let newHistory := jsSlice0 s.annotationHistory (s.historyIndex + 1) ++ [newAnnotations]
  { annotations := newAnnotations,
    annotationHistory := newHistory,
    historyIndex := (newHistory.length : ℤ) - 1 }

/-- `handleUndo`: only acts when `historyIndex > 0`; then decrements the
pointer and restores `annotationHistory[newIndex]`. -/
def handleUndo (s : WrapperState) : WrapperState :=
  if 0 < s.historyIndex then
    { annotations := s.annotationHistory.getD (s.historyIndex - 1).toNat [],
      annotationHistory := s.annotationHistory,
      historyIndex := s.historyIndex - 1 }
  else s

/-- `handleRedo`: only acts when `historyIndex < annotationHistory.length - 1`;
then increments the pointer and restores `annotationHistory[newIndex]`. -/
def handleRedo (s : WrapperState) : WrapperState :=
  if s.historyIndex < (s.annotationHistory.length : ℤ) - 1 then
    { annotations := s.annotationHistory.getD (s.historyIndex + 1).toNat [],
      annotationHistory := s.annotationHistory,
      historyIndex := s.historyIndex + 1 }
  else s

/-- A sequence of `handleAnnotationAdd` operations. -/
def addAll (l : List AnnotationRecord) (s : WrapperState) : WrapperState :=
  l.foldl (fun st a => handleAnnotationAdd a st) s

/-- `n` consecutive `handleUndo` operations. -/
def undoTimes : ℕ → WrapperState → WrapperState
  | 0, s => s
  | n + 1, s => undoTimes n (handleUndo s)

/-- `createLeader` from `AnnotationCanvas` (part_004): a single click
produces a leader line plus an arrow head; the record id is `Date.now()`
(the `clock` argument) and the two fabric objects are identified by
`objBase` and `objBase + 1`. -/
def createLeader (clock objBase : ℕ) (tool : String) (point : Point)
    (st : Styles) : AnnotationRecord :=
  { id := clock, type := "leader", tool := tool,
    objects := [objBase, objBase + 1],
    data := .leader point, styles := st }

/-- The mathematical Euclidean distance between two points, the value
computed by `Math.sqrt(Math.pow(end.x - start.x, 2) + Math.pow(end.y -
start.y, 2))` in exact real arithmetic. -/
noncomputable def EuclideanDistance (start stop : Point) : ℝ :=
  Real.sqrt (((stop.x : ℝ) - (start.x : ℝ)) ^ 2 + ((stop.y : ℝ) - (start.y : ℝ)) ^ 2)

/-- `createDimension` from `AnnotationCanvas` (part_004): on the second
click the factory computes the distance, builds a line and a text fabric
object (ids `objBase`, `objBase + 1`), and emits a record whose `data`
stores `{start, end, distance}` and whose `id` is `Date.now()`. -/
noncomputable def createDimension (clock objBase : ℕ) (tool : String)
    (start stop : Point) (st : Styles) : AnnotationRecord :=
  { id := clock, type := "dimension", tool := tool,
    objects := [objBase, objBase + 1],
    data := .dimension start stop (EuclideanDistance start stop),
    styles := st }

/-- Numeric content of JS `x.toFixed(f)`: the integer `n` for which
`n / 10^f - x` is closest to zero, the larger `n` on ties. -/
noncomputable def jsToFixed (x : ℝ) (f : ℕ) : ℤ :=
  ⌊x * 10 ^ f + 1 / 2⌋

/-- The dimension label text
`${distance.toFixed(styles.dimensionPrecision || 2)}px`, modelled as the
pair (number of decimal digits shown, displayed value in units of
`10^-digits`).  The JS `||` makes a zero precision fall back to 2. -/
noncomputable def createDimensionText (start stop : Point) (st : Styles) : ℕ × ℤ :=
  (if st.dimensionPrecision = 0 then 2 else st.dimensionPrecision,
   jsToFixed (EuclideanDistance start stop)
     (if st.dimensionPrecision = 0 then 2 else st.dimensionPrecision))

/-- The `distance` component of a dimension payload. -/
def dimDistance : AnnData → ℝ
  | .dimension _ _ d => d
  | _ => 0

/-- The style edits exposed by the toolbar UI (`handleStyleChange` call
sites in the toolbar component): text size, line width, text color, line
color.  No control edits `dimensionPrecision`. -/
inductive ToolbarStyleEdit where
  | setTextSize (v : ℕ)
  | setLineWidth (v : ℕ)
  | setTextColor (v : String)
  | setLineColor (v : String)

/-- `handleStyleChange(property, value)`:
`{...annotationStyles, [property]: value}`. -/
def handleStyleChange : ToolbarStyleEdit → Styles → Styles
  | .setTextSize v, st => { st with textSize := v }
  | .setLineWidth v, st => { st with lineWidth := v }
  | .setTextColor v, st => { st with textColor := v }
  | .setLineColor v, st => { st with lineColor := v }

/-- A sequence of toolbar style edits applied to a style record; the
styles the canvas sees are exactly `applyStyleEdits es defaultStyles`
for some edit list `es`. -/
def applyStyleEdits (es : List ToolbarStyleEdit) (st : Styles) : Styles :=
  es.foldl (fun s e => handleStyleChange e s) st

/-- Drawing state of the revision-cloud tool (`isDrawing`,
`drawingPoints`). -/
structure CloudState where
  isDrawing : Bool
  drawingPoints : List Point
deriving DecidableEq

def initialCloudState : CloudState :=
  { isDrawing := false, drawingPoints := [] }

/-- `mouse:down` with the revision-cloud tool active: start drawing with
the pressed point as the only collected point. -/
def cloudMouseDown (p : Point) (_ : CloudState) : CloudState :=
  { isDrawing := true, drawingPoints := [p] }

/-- `mouse:move` with the revision-cloud tool active: appends the point
only while drawing. -/
def cloudMouseMove (p : Point) (c : CloudState) : CloudState :=
  if c.isDrawing then { c with drawingPoints := c.drawingPoints ++ [p] } else c

/-- `finalizeRevisionCloud`: with fewer than 3 collected points the
handler returns early — no record, no error, points left as they are;
otherwise it emits one revision-cloud record whose `data.points` is the
full collected list (its single fabric object is the popped preview
path `pathId`) and clears the point buffer. -/
def finalizeRevisionCloud (clock pathId : ℕ) (tool : String) (st : Styles)
    (c : CloudState) : Option AnnotationRecord × CloudState :=
  if c.drawingPoints.length < 3 then (none, c)
  else
    (some { id := clock, type := "revision-cloud", tool := tool,
            objects := [pathId], data := .cloud c.drawingPoints, styles := st },
     { c with drawingPoints := [] })

/-- `mouse:up` with the revision-cloud tool active: stop drawing, then
finalize. -/
def cloudMouseUp (clock pathId : ℕ) (tool : String) (st : Styles)
    (c : CloudState) : Option AnnotationRecord × CloudState :=
  finalizeRevisionCloud clock pathId tool st { c with isDrawing := false }

/-- A complete revision-cloud interaction: press at `p0`, drag through
`moves`, release.  Returns the emitted record, if any. -/
def cloudInteraction (clock pathId : ℕ) (tool : String) (st : Styles)
    (p0 : Point) (moves : List Point) : Option AnnotationRecord :=
  (cloudMouseUp clock pathId tool st
    (moves.foldl (fun c p => cloudMouseMove p c) (cloudMouseDown p0 initialCloudState))).1

/-- The update record emitted by `handleObjectModified`:
`{...currentAnn, objects: currentAnn.objects.map(...)}` —
every field of the current annotation is kept except `objects`. -/
def handleObjectModified (ca : AnnotationRecord) (objs : List ℕ) : AnnotationRecord :=
  { ca with objects := objs }

/-- The resolved metadata of a capture
(`metadata.resolution || 'Unknown'`, ...). -/
structure CaptureMetadata where
  resolution : String
  magnification : String
  camera : String
  notes : String
  tags : List String
  analysisType : String
deriving DecidableEq

/-- The optional metadata argument of `addCapture` (`metadata = {}`
default; absent fields fall back in the resolved record). -/
structure CaptureMetadataArgs where
  resolution : Option String
  magnification : Option String
  camera : Option String
  notes : Option String
  tags : Option (List String)
  analysisType : Option String
deriving DecidableEq

/-- Field-by-field defaulting performed inside `addCapture`. -/
def resolveMetadata (m : CaptureMetadataArgs) : CaptureMetadata :=
  { resolution := m.resolution.getD "Unknown",
    magnification := m.magnification.getD "Unknown",
    camera := m.camera.getD "Unknown",
    notes := m.notes.getD "",
    tags := m.tags.getD [],
    analysisType := m.analysisType.getD "general" }

/-- A capture record
`{id, timestamp, imageData, metadata}` from `captureManager.js`. -/
structure Capture where
  id : String
  timestamp : String
  imageData : String
  metadata : CaptureMetadata
deriving DecidableEq

/-- The in-memory state of the capture manager (`this.captures`). -/
structure CaptureStore where
  captures : List Capture
deriving DecidableEq

/-- Possible outcomes of reading the persisted capture list from local
storage: the read itself throws, the key is absent (`getItem` returns
null), the stored JSON is corrupt (`JSON.parse` throws), or a list is
recovered. -/
inductive StorageReadOutcome where
  | throwsOnRead
  | missing
  | corrupt
  | ok (l : List Capture)

/-- `loadCaptures`: `try { this.captures = stored ? JSON.parse(stored)
: [] } catch { this.captures = [] }` — every failing outcome falls back
to the empty collection. -/
def loadCaptures : StorageReadOutcome → List Capture
  | .throwsOnRead => []
  | .missing => []
  | .corrupt => []
  | .ok l => l

/-- Outcome of `localStorage.setItem` inside `saveCaptures`. -/
inductive StorageWriteOutcome where
  | ok
  | throwsOnWrite

/-- `saveCaptures`: `try { setItem(...) } catch (e) {
console.error(...) }` — the in-memory list is never touched; on a write
failure the error is logged (second component) and swallowed. -/
def saveCaptures (st : CaptureStore) : StorageWriteOutcome → CaptureStore × Bool
  | .ok => (st, false)
  | .throwsOnWrite => (st, true)

/-- `addCapture` from `captureManager.js`: builds a capture whose id is
`Date.now().toString() + Math.random().toString(36).substr(2, 9)`
(timestamp string followed by the random suffix `rand`) and unshifts it
onto the in-memory list. -/
def addCapture (clock : ℕ) (timestamp imageData rand : String)
    (m : CaptureMetadataArgs) (st : CaptureStore) : CaptureStore × Capture :=
  let capture : Capture :=
    { id := toString clock ++ rand, timestamp := timestamp,
      imageData := imageData, metadata := resolveMetadata m }
  ({ captures := capture :: st.captures }, capture)

/-- JS `Math.round`: round half toward positive infinity. -/
def jsRound (q : ℚ) : ℤ := ⌊q + 1 / 2⌋

/-- The `Uint8ClampedArray` store conversion applied on every assignment
to a pixel buffer entry: clamp to [0, 255], otherwise round, halves to
the nearest even integer. -/
def u8store (q : ℚ) : ℕ :=
  if q ≤ 0 then 0
  else if 255 ≤ q then 255
  else if q - ⌊q⌋ < 1 / 2 then ⌊q⌋.toNat
  else if 1 / 2 < q - ⌊q⌋ then (⌊q⌋ + 1).toNat
  else if ⌊q⌋ % 2 = 0 then ⌊q⌋.toNat else (⌊q⌋ + 1).toNat

/-- A pixel buffer of length `n` whose entry at index `j` is `f j`; the
RGBA layout is flat with stride 4 exactly as in `ImageData.data`. -/
def buildImage (n : ℕ) (f : ℕ → ℕ) : List ℕ :=
  (List.range n).map f

/-- The per-pixel luminance `data[i]*0.299 + data[i+1]*0.587 +
data[i+2]*0.114` of pixel group `p` (buffer base index `4*p`). -/
def luminance (d : List ℕ) (p : ℕ) : ℚ :=
  (d.getD (4 * p) 0 : ℚ) * (299 / 1000) + (d.getD (4 * p + 1) 0 : ℚ) * (587 / 1000) +
    (d.getD (4 * p + 2) 0 : ℚ) * (114 / 1000)

/-- `ImageProcessor.grayscale`: writes the pixel's luminance to R, G and
B; the alpha entry (index 3 mod 4) is never written. -/
def grayscale (d : List ℕ) : List ℕ :=
  buildImage d.length fun j =>
    if j % 4 = 3 then d.getD j 0 else u8store (luminance d (j / 4))

/-- `ImageProcessor.invert`: per channel `255 - value`. -/
def invert (d : List ℕ) : List ℕ :=
  buildImage d.length fun j =>
    if j % 4 = 3 then d.getD j 0 else u8store (255 - (d.getD j 0 : ℚ))

/-- `ImageProcessor.adjustBrightnessContrast`: per channel
`max(0, min(255, (v - 128) * contrast + 128 + brightness))`. -/
def adjustBrightnessContrast (brightness contrast : ℚ) (d : List ℕ) : List ℕ :=
  buildImage d.length fun j =>
    if j % 4 = 3 then d.getD j 0
    else u8store (max 0 (min 255 (((d.getD j 0 : ℚ) - 128) * contrast + 128 + brightness)))

/-- `ImageProcessor.threshold`: luminance above the cutoff gives 255 on
all three channels, otherwise 0. -/
def threshold (value : ℚ) (d : List ℕ) : List ℕ :=
  buildImage d.length fun j =>
    if j % 4 = 3 then d.getD j 0
    else if value < luminance d (j / 4) then 255 else 0

/-- The `k × k` neighborhood reads of channel `c` around pixel `(x, y)`
(row-major scan, offsets `-⌊k/2⌋ .. ⌊k/2⌋`), as in the median, noise
reduction and morphology loops. -/
def kernelReads (d : List ℕ) (w k x y c : ℕ) : List ℕ :=
  (List.range k).flatMap fun ky =>
    (List.range k).map fun kx =>
      d.getD (((y + ky - k / 2) * w + (x + kx - k / 2)) * 4 + c) 0

/-- Insertion into a sorted list, ascending. -/
def insertSorted (x : ℕ) : List ℕ → List ℕ
  | [] => [x]
  | y :: ys => if x ≤ y then x :: y :: ys else y :: insertSorted x ys

/-- Ascending sort (the numeric `values.sort((a, b) => a - b)`). -/
def sortAsc (l : List ℕ) : List ℕ :=
  l.foldr insertSorted []

/-- `ImageProcessor.medianFilter`: interior pixels get the median of the
`k × k` neighborhood per channel; the border of width `⌊k/2⌋` is left
unprocessed. -/
def medianFilter (k w h : ℕ) (d : List ℕ) : List ℕ :=
  buildImage d.length fun j =>
    if j % 4 = 3 then d.getD j 0
    else if k / 2 ≤ j / 4 % w ∧ j / 4 % w < w - k / 2 ∧
        k / 2 ≤ j / 4 / w ∧ j / 4 / w < h - k / 2 then
      (sortAsc (kernelReads d w k (j / 4 % w) (j / 4 / w) (j % 4))).getD (k * k / 2) 0
    else d.getD j 0

def sobelXKernel : List (List ℤ) := [[-1, 0, 1], [-2, 0, 2], [-1, 0, 1]]

def sobelYKernel : List (List ℤ) := [[-1, -2, -1], [0, 0, 0], [1, 2, 1]]

/-- One Sobel gradient component: the 3 × 3 kernel applied to the R
channel of the grayscale buffer around `(x, y)`. -/
def sobelG (gray : List ℕ) (w x y : ℕ) (ker : List (List ℤ)) : ℤ :=
  ((List.range 3).map fun ky =>
    ((List.range 3).map fun kx =>
      (gray.getD (((y + ky - 1) * w + (x + kx - 1)) * 4) 0 : ℤ) *
        ((ker.getD ky []).getD kx 0)).sum).sum

/-- The nearest integer to `√n` (the stored value of the float
`Math.sqrt(n)`, which is never a half-integer). -/
def roundSqrt (n : ℕ) : ℕ := (Nat.sqrt (4 * n) + 1) / 2

/-- `ImageProcessor.sobelEdgeDetection`: grayscale pre-pass, then for
interior pixels the magnitude `min(255, √(gx² + gy²))` on all three
channels; borders keep the pre-grayscale values because `newData` copies
the original buffer. -/
def sobelEdgeDetection (w h : ℕ) (d : List ℕ) : List ℕ :=
  buildImage d.length fun j =>
    if j % 4 = 3 then d.getD j 0
    else if 1 ≤ j / 4 % w ∧ j / 4 % w < w - 1 ∧ 1 ≤ j / 4 / w ∧ j / 4 / w < h - 1 then
      min 255 (roundSqrt
        ((sobelG (grayscale d) w (j / 4 % w) (j / 4 / w) sobelXKernel ^ 2 +
          sobelG (grayscale d) w (j / 4 % w) (j / 4 / w) sobelYKernel ^ 2).toNat))
    else d.getD j 0

/-- The 256-bin histogram of the grayscale buffer's R channel: number of
pixel groups whose gray value is `g` (the loop steps 4 over the buffer,
visiting `⌈length/4⌉` groups). -/
def histogram (gray : List ℕ) (g : ℕ) : ℕ :=
  ((List.range ((gray.length + 3) / 4)).filter fun p =>
    gray.getD (4 * p) 0 = g).length

/-- Cumulative distribution `cdf[g] = Σ_{t ≤ g} histogram[t]`. -/
def cdf (gray : List ℕ) (g : ℕ) : ℕ :=
  ((List.range (g + 1)).map (histogram gray)).sum

/-- `cdf.find(val => val > 0)`: the first positive cdf entry (0 when the
image is empty, in which case the JS arithmetic degenerates to NaN and
the stores clamp to 0, matching the rational convention `x / 0 = 0`). -/
def cdfMinVal (gray : List ℕ) : ℕ :=
  (((List.range 256).map (cdf gray)).find? fun v => decide (0 < v)).getD 0

/-- `Math.round(((cdf[g] - cdfMin) / (cdfMax - cdfMin)) * 255)`. -/
def histEqNewValue (gray : List ℕ) (g : ℕ) : ℤ :=
  jsRound ((((cdf gray g : ℚ) - (cdfMinVal gray : ℚ)) /
    ((cdf gray 255 : ℚ) - (cdfMinVal gray : ℚ))) * 255)

/-- `ImageProcessor.histogramEqualization`: grayscale pre-pass, then
every pixel's three channels become the normalized cdf value of its gray
level. -/
def histogramEqualization (d : List ℕ) : List ℕ :=
  buildImage d.length fun j =>
    if j % 4 = 3 then d.getD j 0
    else u8store ((histEqNewValue (grayscale d)
      ((grayscale d).getD (4 * (j / 4)) 0) : ℚ))

/-- `ImageProcessor.noiseReduction`: interior pixels get the rounded
3 × 3 mean of each channel. -/
def noiseReduction (w h : ℕ) (d : List ℕ) : List ℕ :=
  buildImage d.length fun j =>
    if j % 4 = 3 then d.getD j 0
    else if 1 ≤ j / 4 % w ∧ j / 4 % w < w - 1 ∧ 1 ≤ j / 4 / w ∧ j / 4 / w < h - 1 then
      u8store ((jsRound (((kernelReads d w 3 (j / 4 % w) (j / 4 / w) (j % 4)).sum : ℚ) / 9) : ℚ))
    else d.getD j 0

/-- The convolution sum of a `k × k` kernel at `(x, y)`, channel `c`. -/
def convSum (kernel : List (List ℚ)) (d : List ℕ) (w x y c : ℕ) : ℚ :=
  ((List.range kernel.length).map fun ky =>
    ((List.range kernel.length).map fun kx =>
      (d.getD (((y + ky - kernel.length / 2) * w +
        (x + kx - kernel.length / 2)) * 4 + c) 0 : ℚ) *
        ((kernel.getD ky []).getD kx 0)).sum).sum

/-- `ImageProcessor.applyConvolution`: interior pixels get
`max(0, min(255, Math.round(sum)))` per channel. -/
def applyConvolution (kernel : List (List ℚ)) (w h : ℕ) (d : List ℕ) : List ℕ :=
  buildImage d.length fun j =>
    if j % 4 = 3 then d.getD j 0
    else if kernel.length / 2 ≤ j / 4 % w ∧ j / 4 % w < w - kernel.length / 2 ∧
        kernel.length / 2 ≤ j / 4 / w ∧ j / 4 / w < h - kernel.length / 2 then
      (max 0 (min 255 (jsRound (convSum kernel d w (j / 4 % w) (j / 4 / w) (j % 4))))).toNat
    else d.getD j 0

def sharpenKernel : List (List ℚ) := [[0, -1, 0], [-1, 5, -1], [0, -1, 0]]

/-- `ImageProcessor.sharpen`: convolution with the fixed 3 × 3 kernel. -/
def sharpen (w h : ℕ) (d : List ℕ) : List ℕ :=
  applyConvolution sharpenKernel w h d

inductive MorphOp where
  | erosion
  | dilation

/-- `ImageProcessor.morphologicalOperation`: threshold(128) pre-pass to
a binary buffer, then interior pixels become 0 for erosion when any
neighborhood R entry is 0 (else 255), and 255 for dilation when any
neighborhood R entry is 255 (else 0); borders keep the pre-threshold
values because `newData` copies the original buffer. -/
def morphologicalOperation (op : MorphOp) (k w h : ℕ) (d : List ℕ) : List ℕ :=
  buildImage d.length fun j =>
    if j % 4 = 3 then d.getD j 0
    else if k / 2 ≤ j / 4 % w ∧ j / 4 % w < w - k / 2 ∧
        k / 2 ≤ j / 4 / w ∧ j / 4 / w < h - k / 2 then
      (match op with
       | .erosion =>
        if (kernelReads (threshold 128 d) w k (j / 4 % w) (j / 4 / w) 0).any
            (fun v => v == 0) then 0 else 255
       | .dilation =>
        if (kernelReads (threshold 128 d) w k (j / 4 % w) (j / 4 / w) 0).any
            (fun v => v == 255) then 255 else 0)
    else d.getD j 0

def erosion (k w h : ℕ) (d : List ℕ) : List ℕ :=
  morphologicalOperation .erosion k w h d

def dilation (k w h : ℕ) (d : List ℕ) : List ℕ :=
  morphologicalOperation .dilation k w h d

/-- A "tip" state: the pointer sits on the last history entry, the
history is non-empty, and the visible list is that last entry.  Every
state produced by an add from a tip state (or from the initial state) is
again a tip state. -/
def TipState (s : WrapperState) : Prop :=
  s.historyIndex = (s.annotationHistory.length : ℤ) - 1 ∧
  s.annotationHistory ≠ [] ∧
  s.annotations = s.annotationHistory.getD (s.annotationHistory.length - 1) []

/-- States of the `AnnotationWrapper` history engine reachable from the
initial state through its five mutating callbacks. -/
inductive ReachableWrapper : WrapperState → Prop where
  | init : ReachableWrapper initialWrapperState
  | add (a : AnnotationRecord) (s : WrapperState) :
      ReachableWrapper s → ReachableWrapper (handleAnnotationAdd a s)
  | update (i : ℕ) (u : AnnotationRecord) (s : WrapperState) :
      ReachableWrapper s → ReachableWrapper (handleAnnotationUpdate i u s)
  | delete (i : ℕ) (s : WrapperState) :
      ReachableWrapper s → ReachableWrapper (handleAnnotationDelete i s)
  | undo (s : WrapperState) :
      ReachableWrapper s → ReachableWrapper (handleUndo s)
  | redo (s : WrapperState) :
      ReachableWrapper s → ReachableWrapper (handleRedo s)

/-- Structural invariant of the wrapper history: the pointer stays in
`[-1, length)`, and whenever it is non-negative the visible annotation
list is the history entry under the pointer. -/
def WrapperInv (s : WrapperState) : Prop :=
  -1 ≤ s.historyIndex ∧ s.historyIndex < (s.annotationHistory.length : ℤ) ∧
  (0 ≤ s.historyIndex →
    s.annotations = s.annotationHistory.getD s.historyIndex.toNat [])

/-- A concrete two-add run used by the C2 witness and counterexample. -/
def twoAddState : WrapperState :=
  handleAnnotationAdd (createLeader 2 200 "multileader" ⟨1, 1⟩ defaultStyles)
    (handleAnnotationAdd (createLeader 1 100 "leader" ⟨0, 0⟩ defaultStyles)
      initialWrapperState)

/-- An image entry of the `ImageProcessing` page history
(`{src, file, width, height, name}`; the file handle is not modelled). -/
structure ProcImage where
  src : String
  name : String
  width : ℕ
  height : ℕ
deriving DecidableEq, Inhabited

/-- The `ImageProcessing` page state relevant to its history engine:
`imageHistory`, `historyIndex` (initially `-1`), `processedImage`. -/
structure ProcState where
  imageHistory : List ProcImage
  historyIndex : ℤ
  processedImage : Option ProcImage

/-- `addToHistory` from `ImageProcessing.js`: truncate after the
pointer, append, move the pointer to the new last index. -/
def addToHistory (image : ProcImage) (s : ProcState) : ProcState :=
  let newHistory := jsSlice0 s.imageHistory (s.historyIndex + 1) ++ [image]
  { imageHistory := newHistory,
    historyIndex := (newHistory.length : ℤ) - 1,
    processedImage := s.processedImage }

/-- `undo` from `ImageProcessing.js`: guarded by `historyIndex > 0`. -/
def procUndo (s : ProcState) : ProcState :=
  if 0 < s.historyIndex then
    { imageHistory := s.imageHistory,
      historyIndex := s.historyIndex - 1,
      processedImage := some (s.imageHistory.getD (s.historyIndex - 1).toNat default) }
  else s

/-- `redo` from `ImageProcessing.js`: guarded by
`historyIndex < imageHistory.length - 1`. -/
def procRedo (s : ProcState) : ProcState :=
  if s.historyIndex < (s.imageHistory.length : ℤ) - 1 then
    { imageHistory := s.imageHistory,
      historyIndex := s.historyIndex + 1,
      processedImage := some (s.imageHistory.getD (s.historyIndex + 1).toNat default) }
  else s

/-- Combined state of the Canvas Surface (fabric objects, identified by
numbers) and the Annotation Store (the wrapper state), plus the
`currentAnn` ref kept by `AnnotationCanvas`.  `nextObjId` is the supply
of fresh fabric object identities used for the clones created by the
annotations-change effect. -/
structure CanvasSystem where
  wrapper : WrapperState
  canvasObjects : List ℕ
  currentAnn : Option AnnotationRecord
  nextObjId : ℕ

def initialCanvasSystem : CanvasSystem :=
  { wrapper := initialWrapperState, canvasObjects := [], currentAnn := none,
    nextObjId := 100 }

/-- The "Load existing annotations" effect of `AnnotationCanvas`: it
runs on every change of the `annotations` prop and, when the list is
non-empty, adds `fabric.util.object.clone(obj)` of every record's every
fabric object to the canvas (every fabric object has a `type`, so the
`if (obj.type)` guard always passes).  The clones are fresh objects
drawn from `nextObjId` and are owned by no record. -/
def annotationsChangeEffect (s : CanvasSystem) : CanvasSystem :=
  if s.wrapper.annotations.length = 0 then s
  else
    { wrapper := s.wrapper,
      canvasObjects := s.canvasObjects ++
        (List.range ((s.wrapper.annotations.map fun a => a.objects.length).sum)).map
          fun i => s.nextObjId + i,
      currentAnn := s.currentAnn,
      nextObjId :=
        s.nextObjId + (s.wrapper.annotations.map fun a => a.objects.length).sum }

/-- Common tail of every factory in `AnnotationCanvas` (createDimension,
createLeader, ...): each created fabric object is added to the canvas,
`onAnnotationAdd` pushes the record into the wrapper store and
`setCurrentAnnotation` records the new annotation as current; the
resulting `annotations` change re-runs the clone-adding effect. -/
def placeAnnotationRecord (a : AnnotationRecord) (s : CanvasSystem) : CanvasSystem :=
  annotationsChangeEffect
    { wrapper := handleAnnotationAdd a s.wrapper,
      canvasObjects := s.canvasObjects ++ a.objects,
      currentAnn := some a,
      nextObjId := s.nextObjId }

/-- Removing a fabric object from the canvas (direct-manipulation
delete): the canvas drops the object and fires `object:removed`;
`handleObjectRemoved` calls `onAnnotationDelete(currentAnn.id)` only
when the removed object belongs to `currentAnn`.  Only in that branch
does `annotations` change, re-running the clone-adding effect. -/
def removeCanvasObject (o : ℕ) (s : CanvasSystem) : CanvasSystem :=
  match s.currentAnn with
  | some ca =>
    if o ∈ ca.objects then
      annotationsChangeEffect
        { wrapper := handleAnnotationDelete ca.id s.wrapper,
          canvasObjects := s.canvasObjects.erase o,
          currentAnn := some ca,
          nextObjId := s.nextObjId }
    else
      { wrapper := s.wrapper,
        canvasObjects := s.canvasObjects.erase o,
        currentAnn := some ca,
        nextObjId := s.nextObjId }
  | none =>
    { wrapper := s.wrapper,
      canvasObjects := s.canvasObjects.erase o,
      currentAnn := none,
      nextObjId := s.nextObjId }

/-- The C3 invariant as stated by the spec: every stored record has all
its render shapes on the canvas, and every canvas shape belongs to some
stored record. -/
def StoreCanvasConsistent (s : CanvasSystem) : Prop :=
  (∀ a ∈ s.wrapper.annotations, ∀ o ∈ a.objects, o ∈ s.canvasObjects) ∧
  (∀ o ∈ s.canvasObjects, ∃ a ∈ s.wrapper.annotations, o ∈ a.objects)

/-- Two concrete leader annotations used by the C3 counterexample. -/
def leaderA : AnnotationRecord := createLeader 1 10 "leader" ⟨0, 0⟩ defaultStyles

def leaderB : AnnotationRecord := createLeader 2 20 "leader" ⟨5, 5⟩ defaultStyles

/-- The system after placing `leaderA` then `leaderB` (so `leaderB` is
the current annotation). -/
def twoLeaderSystem : CanvasSystem :=
  placeAnnotationRecord leaderB (placeAnnotationRecord leaderA initialCanvasSystem)

/-- `l.getD l.length d` of a one-element extension returns the new element. -/
theorem getD_concat_self {α : Type} (l : List α) (x d : α) :
    (l ++ [x]).getD l.length d = x := by
  induction l with
  | nil => rfl
  | cons y ys ih =>
    rw [List.cons_append, List.length_cons, List.getD_cons_succ]
    exact ih

/-- `getD` on an append, index within the left list. -/
theorem getD_append_lt {α : Type} (l m : List α) (n : ℕ) (d : α) (h : n < l.length) :
    (l ++ m).getD n d = l.getD n d := by
  induction l generalizing n with
  | nil => simp at h
  | cons y ys ih =>
    cases n with
    | zero => rfl
    | succ k =>
      simp only [List.cons_append, List.getD]
      exact ih k (by simpa using h)

/-- On a "tip" state (pointer at the end of the history),
`handleAnnotationAdd` simply appends the new snapshot. -/
theorem handleAnnotationAdd_tip (a : AnnotationRecord) (s : WrapperState)
    (h : s.historyIndex = (s.annotationHistory.length : ℤ) - 1) :
    handleAnnotationAdd a s =
      { annotations := s.annotations ++ [a],
        annotationHistory := s.annotationHistory ++ [s.annotations ++ [a]],
        historyIndex := (s.annotationHistory.length : ℤ) } := by
  have hs : jsSlice0 s.annotationHistory (s.historyIndex + 1) = s.annotationHistory := by
    rw [h]
    simp [jsSlice0]
  simp only [handleAnnotationAdd, hs]
  simp

theorem handleAnnotationAdd_tipState (a : AnnotationRecord) (s : WrapperState)
    (h : TipState s) : TipState (handleAnnotationAdd a s) ∧
      (handleAnnotationAdd a s).annotationHistory.getD 0 [] =
        s.annotationHistory.getD 0 [] ∧
      (handleAnnotationAdd a s).annotationHistory.length =
        s.annotationHistory.length + 1 := by
  obtain ⟨hidx, hne, hann⟩ := h
  rw [handleAnnotationAdd_tip a s hidx]
  refine ⟨⟨?_, by simp, ?_⟩, ?_, by simp⟩
  · simp only [List.length_append, List.length_cons, List.length_nil]
    push_cast
    ring
  · simp only [List.length_append, List.length_cons, List.length_nil,
      Nat.add_sub_cancel]
    exact (getD_concat_self s.annotationHistory (s.annotations ++ [a]) []).symm
  · have hpos : 0 < s.annotationHistory.length := List.length_pos.mpr hne
    exact getD_append_lt _ _ 0 [] hpos

theorem addAll_tipState (as : List AnnotationRecord) :
    ∀ (s : WrapperState), TipState s →
      TipState (addAll as s) ∧
      (addAll as s).annotationHistory.getD 0 [] = s.annotationHistory.getD 0 [] ∧
      (addAll as s).annotationHistory.length =
        s.annotationHistory.length + as.length := by
  induction as with
  | nil => intro s h; exact ⟨h, rfl, rfl⟩
  | cons a as ih =>
    intro s h
    have hstep := handleAnnotationAdd_tipState a s h
    have hrec := ih (handleAnnotationAdd a s) hstep.1
    have hfold : addAll (a :: as) s = addAll as (handleAnnotationAdd a s) := rfl
    rw [hfold]
    refine ⟨hrec.1, ?_, ?_⟩
    · rw [hrec.2.1, hstep.2.1]
    · rw [hrec.2.2, hstep.2.2]
      simp only [List.length_cons]
      omega

/-- Applying at least `m` undos from a state whose pointer is `m` (and
whose visible list is the history entry at `m`) lands on history entry 0. -/
theorem undoTimes_drains (k : ℕ) :
    ∀ (m : ℕ) (s : WrapperState),
      s.historyIndex = (m : ℤ) → m ≤ k →
      s.annotations = s.annotationHistory.getD m [] →
      (undoTimes k s).annotations = s.annotationHistory.getD 0 [] := by
  induction k with
  | zero =>
    intro m s hidx hm hann
    interval_cases m
    simpa [undoTimes] using hann
  | succ k ih =>
    intro m s hidx hm hann
    show (undoTimes k (handleUndo s)).annotations = _
    cases m with
    | zero =>
      have hnoop : handleUndo s = s := by
        rw [handleUndo, if_neg]
        rw [hidx]
        simp
      rw [hnoop]
      exact ih 0 s hidx (Nat.zero_le k) hann
    | succ m =>
      have hlt : 0 < s.historyIndex := by rw [hidx]; positivity
      have hstep : handleUndo s =
          { annotations := s.annotationHistory.getD m [],
            annotationHistory := s.annotationHistory,
            historyIndex := (m : ℤ) } := by
        have h2 : s.historyIndex - 1 = (m : ℤ) := by rw [hidx]; push_cast; ring
        rw [handleUndo, if_pos hlt, h2]
        simp
      rw [hstep]
      exact ih m _ rfl (by omega) rfl

/-- C1 (amended): from the empty initial state, N adds followed by N
undos leave the store holding the first pushed snapshot `[a]` — the
single-element list with the first added annotation record — because the
empty initial state is never recorded in the history and `handleUndo`
stops at pointer 0. -/
theorem addN_undoN_yields_first_snapshot
    (a : AnnotationRecord) (as : List AnnotationRecord) :
    (undoTimes (as.length + 1)
      (addAll as (handleAnnotationAdd a initialWrapperState))).annotations = [a] := by
  have h1 : handleAnnotationAdd a initialWrapperState =
      { annotations := [a], annotationHistory := [[a]], historyIndex := 0 } := by
    rw [handleAnnotationAdd]
    simp [initialWrapperState, jsSlice0]
  have htip : TipState (handleAnnotationAdd a initialWrapperState) := by
    rw [h1]
    refine ⟨by simp, by simp, by simp⟩
  obtain ⟨⟨hidx, hne, hann⟩, hhead, hlen⟩ :=
    addAll_tipState as (handleAnnotationAdd a initialWrapperState) htip
  have hlen1 : (addAll as (handleAnnotationAdd a initialWrapperState)).annotationHistory.length
      = as.length + 1 := by
    rw [hlen, h1]; simp [Nat.add_comm]
  have hidx2 : (addAll as (handleAnnotationAdd a initialWrapperState)).historyIndex
      = (as.length : ℤ) := by
    rw [hidx, hlen1]; push_cast; ring
  have hann2 : (addAll as (handleAnnotationAdd a initialWrapperState)).annotations
      = (addAll as (handleAnnotationAdd a initialWrapperState)).annotationHistory.getD as.length [] := by
    rw [hann, hlen1]
    norm_num
  have hmain := undoTimes_drains (as.length + 1) as.length _ hidx2 (by omega) hann2
  rw [hmain, hhead, h1]
  rfl

/-- C1 (counterexample): the claim as stated fails already at N = 1 —
one add followed by one undo leaves the store non-empty (the history
never contains the empty initial snapshot, so the undo is a no-op at
pointer 0). -/
theorem addN_undoN_counterexample :
    (undoTimes 1 (handleAnnotationAdd
      (createLeader 0 100 "leader" ⟨0, 0⟩ defaultStyles)
      initialWrapperState)).annotations ≠ [] := by
  have h1 : handleAnnotationAdd
      (createLeader 0 100 "leader" ⟨0, 0⟩ defaultStyles) initialWrapperState =
      { annotations := [createLeader 0 100 "leader" ⟨0, 0⟩ defaultStyles],
        annotationHistory := [[createLeader 0 100 "leader" ⟨0, 0⟩ defaultStyles]],
        historyIndex := 0 } := by
    rw [handleAnnotationAdd]
    simp [initialWrapperState, jsSlice0]
  show (undoTimes 0 (handleUndo _)).annotations ≠ []
  rw [h1]
  have hnoop : handleUndo
      { annotations := [createLeader 0 100 "leader" ⟨0, 0⟩ defaultStyles],
        annotationHistory := [[createLeader 0 100 "leader" ⟨0, 0⟩ defaultStyles]],
        historyIndex := 0 } =
      { annotations := [createLeader 0 100 "leader" ⟨0, 0⟩ defaultStyles],
        annotationHistory := [[createLeader 0 100 "leader" ⟨0, 0⟩ defaultStyles]],
        historyIndex := 0 } := by
    rw [handleUndo, if_neg]
    simp
  rw [hnoop]
  simp [undoTimes]

/-- Any state built by a snapshot push satisfies the invariant. -/
theorem pushState_inv (l : List AnnotationRecord) (hist : List (List AnnotationRecord))
    (e : ℤ) :
    WrapperInv { annotations := l,
                 annotationHistory := jsSlice0 hist e ++ [l],
                 historyIndex := ((jsSlice0 hist e ++ [l]).length : ℤ) - 1 } := by
  refine ⟨?_, by simp, fun _ => ?_⟩
  · simp only [List.length_append, List.length_cons, List.length_nil]
    push_cast
    omega
  · have h1 : (((jsSlice0 hist e ++ [l]).length : ℤ) - 1).toNat
        = (jsSlice0 hist e).length := by
      simp only [List.length_append, List.length_cons, List.length_nil]
      push_cast
      omega
    rw [h1]
    exact (getD_concat_self (jsSlice0 hist e) l []).symm

theorem reachable_inv {s : WrapperState} (h : ReachableWrapper s) : WrapperInv s := by
  induction h with
  | init => exact ⟨by norm_num [initialWrapperState], by norm_num [initialWrapperState],
      by norm_num [initialWrapperState]⟩
  | add a s _ _ => exact pushState_inv _ _ _
  | update i u s _ _ => exact pushState_inv _ _ _
  | delete i s _ _ => exact pushState_inv _ _ _
  | undo s _ ih =>
    rw [handleUndo]
    by_cases hc : 0 < s.historyIndex
    · rw [if_pos hc]
      obtain ⟨h1, h2, _⟩ := ih
      refine ⟨?_, ?_, fun _ => rfl⟩
      · show -1 ≤ s.historyIndex - 1
        omega
      · show s.historyIndex - 1 < (s.annotationHistory.length : ℤ)
        omega
    · rw [if_neg hc]
      exact ih
  | redo s _ ih =>
    rw [handleRedo]
    by_cases hc : s.historyIndex < (s.annotationHistory.length : ℤ) - 1
    · rw [if_pos hc]
      obtain ⟨h1, h2, _⟩ := ih
      refine ⟨?_, ?_, fun _ => rfl⟩
      · show -1 ≤ s.historyIndex + 1
        omega
      · show s.historyIndex + 1 < (s.annotationHistory.length : ℤ)
        omega
    · rw [if_neg hc]
      exact ih

/-- C2 (amended): for every reachable wrapper state whose pointer is
strictly positive, `handleUndo` followed by `handleRedo` restores both
the visible annotation list and the pointer.  (At pointer 0 the claim
fails, see the counterexample.) -/
theorem undo_redo_identity (s : WrapperState) (hr : ReachableWrapper s)
    (h : 0 < s.historyIndex) :
    (handleRedo (handleUndo s)).annotations = s.annotations ∧
    (handleRedo (handleUndo s)).historyIndex = s.historyIndex := by
  obtain ⟨h1, h2, h3⟩ := reachable_inv hr
  have hu : handleUndo s =
      { annotations := s.annotationHistory.getD (s.historyIndex - 1).toNat [],
        annotationHistory := s.annotationHistory,
        historyIndex := s.historyIndex - 1 } := by
    rw [handleUndo, if_pos h]
  rw [hu]
  have hlt : s.historyIndex - 1 < (s.annotationHistory.length : ℤ) - 1 := by omega
  have hre : handleRedo
      { annotations := s.annotationHistory.getD (s.historyIndex - 1).toNat [],
        annotationHistory := s.annotationHistory,
        historyIndex := s.historyIndex - 1 } =
      { annotations := s.annotationHistory.getD (s.historyIndex - 1 + 1).toNat [],
        annotationHistory := s.annotationHistory,
        historyIndex := s.historyIndex - 1 + 1 } := by
    rw [handleRedo, if_pos hlt]
  rw [hre]
  have hid : s.historyIndex - 1 + 1 = s.historyIndex := by ring
  rw [hid]
  exact ⟨(h3 (by omega)).symm, rfl⟩

theorem twoAddState_eq : twoAddState =
    { annotations := [createLeader 1 100 "leader" ⟨0, 0⟩ defaultStyles,
        createLeader 2 200 "multileader" ⟨1, 1⟩ defaultStyles],
      annotationHistory := [[createLeader 1 100 "leader" ⟨0, 0⟩ defaultStyles],
        [createLeader 1 100 "leader" ⟨0, 0⟩ defaultStyles,
          createLeader 2 200 "multileader" ⟨1, 1⟩ defaultStyles]],
      historyIndex := 1 } := by
  rw [twoAddState, handleAnnotationAdd, handleAnnotationAdd]
  norm_num [initialWrapperState, jsSlice0]

/-- C2 (witness): the amended identity at the concrete reachable state
reached by two adds (pointer 1 > 0). -/
theorem undo_redo_identity_witness :
    ReachableWrapper twoAddState ∧ 0 < twoAddState.historyIndex ∧
    (handleRedo (handleUndo twoAddState)).annotations = twoAddState.annotations := by
  have hr : ReachableWrapper twoAddState :=
    ReachableWrapper.add _ _ (ReachableWrapper.add _ _ ReachableWrapper.init)
  have hpos : 0 < twoAddState.historyIndex := by rw [twoAddState_eq]; norm_num
  exact ⟨hr, hpos, (undo_redo_identity twoAddState hr hpos).1⟩

/-- C2 (counterexample): the claim fails when the pointer is already at
position 0 — in the reachable state obtained by add, add, undo (history
of length 2, pointer 0) a further `handleUndo` is a no-op yet
`handleRedo` moves the visible list forward, so undo-then-redo is not an
identity there. -/
theorem undo_redo_at_zero_counterexample :
    ReachableWrapper (handleUndo twoAddState) ∧
    (handleUndo twoAddState).annotationHistory ≠ [] ∧
    (handleRedo (handleUndo (handleUndo twoAddState))).annotations ≠
      (handleUndo twoAddState).annotations := by
  have hr : ReachableWrapper (handleUndo twoAddState) :=
    ReachableWrapper.undo _
      (ReachableWrapper.add _ _ (ReachableWrapper.add _ _ ReachableWrapper.init))
  have hu : handleUndo twoAddState =
      { annotations := [createLeader 1 100 "leader" ⟨0, 0⟩ defaultStyles],
        annotationHistory := [[createLeader 1 100 "leader" ⟨0, 0⟩ defaultStyles],
          [createLeader 1 100 "leader" ⟨0, 0⟩ defaultStyles,
            createLeader 2 200 "multileader" ⟨1, 1⟩ defaultStyles]],
        historyIndex := 0 } := by
    rw [twoAddState_eq, handleUndo]
    norm_num
  refine ⟨hr, by rw [hu]; simp, ?_⟩
  rw [hu]
  have hnoop : handleUndo
      { annotations := [createLeader 1 100 "leader" ⟨0, 0⟩ defaultStyles],
        annotationHistory := [[createLeader 1 100 "leader" ⟨0, 0⟩ defaultStyles],
          [createLeader 1 100 "leader" ⟨0, 0⟩ defaultStyles,
            createLeader 2 200 "multileader" ⟨1, 1⟩ defaultStyles]],
        historyIndex := 0 } =
      { annotations := [createLeader 1 100 "leader" ⟨0, 0⟩ defaultStyles],
        annotationHistory := [[createLeader 1 100 "leader" ⟨0, 0⟩ defaultStyles],
          [createLeader 1 100 "leader" ⟨0, 0⟩ defaultStyles,
            createLeader 2 200 "multileader" ⟨1, 1⟩ defaultStyles]],
        historyIndex := 0 } := by
    rw [handleUndo]
    norm_num
  rw [hnoop]
  have hre : handleRedo
      { annotations := [createLeader 1 100 "leader" ⟨0, 0⟩ defaultStyles],
        annotationHistory := [[createLeader 1 100 "leader" ⟨0, 0⟩ defaultStyles],
          [createLeader 1 100 "leader" ⟨0, 0⟩ defaultStyles,
            createLeader 2 200 "multileader" ⟨1, 1⟩ defaultStyles]],
        historyIndex := 0 } =
      { annotations := [createLeader 1 100 "leader" ⟨0, 0⟩ defaultStyles,
          createLeader 2 200 "multileader" ⟨1, 1⟩ defaultStyles],
        annotationHistory := [[createLeader 1 100 "leader" ⟨0, 0⟩ defaultStyles],
          [createLeader 1 100 "leader" ⟨0, 0⟩ defaultStyles,
            createLeader 2 200 "multileader" ⟨1, 1⟩ defaultStyles]],
        historyIndex := 1 } := by
    rw [handleRedo]
    norm_num
  rw [hre]
  intro hcontr
  have hlen := congrArg List.length hcontr
  simp at hlen

/-- C5: on every snapshot push (wrapper add/update/delete and the image
page's `addToHistory`) the entries strictly after the pointer are
discarded, the new snapshot is appended, and the pointer moves to the
new last index; undo decrements the pointer exactly when it is positive
and redo increments it exactly when it is below the last index. -/
theorem history_stack_contract (s : WrapperState) (a u : AnnotationRecord) (i : ℕ)
    (p : ProcState) (img : ProcImage)
    (hs : -1 ≤ s.historyIndex) (hp : -1 ≤ p.historyIndex) :
    ((handleAnnotationAdd a s).annotationHistory =
        s.annotationHistory.take (s.historyIndex + 1).toNat ++ [s.annotations ++ [a]] ∧
      (handleAnnotationAdd a s).historyIndex =
        ((handleAnnotationAdd a s).annotationHistory.length : ℤ) - 1) ∧
    ((handleAnnotationUpdate i u s).annotationHistory =
        s.annotationHistory.take (s.historyIndex + 1).toNat ++
          [s.annotations.map fun ann => if ann.id = i then u else ann] ∧
      (handleAnnotationUpdate i u s).historyIndex =
        ((handleAnnotationUpdate i u s).annotationHistory.length : ℤ) - 1) ∧
    ((handleAnnotationDelete i s).annotationHistory =
        s.annotationHistory.take (s.historyIndex + 1).toNat ++
          [s.annotations.filter fun ann => ann.id ≠ i] ∧
      (handleAnnotationDelete i s).historyIndex =
        ((handleAnnotationDelete i s).annotationHistory.length : ℤ) - 1) ∧
    ((handleUndo s).historyIndex =
        (if 0 < s.historyIndex then s.historyIndex - 1 else s.historyIndex)) ∧
    ((handleRedo s).historyIndex =
        (if s.historyIndex < (s.annotationHistory.length : ℤ) - 1 then
          s.historyIndex + 1 else s.historyIndex)) ∧
    ((addToHistory img p).imageHistory =
        p.imageHistory.take (p.historyIndex + 1).toNat ++ [img] ∧
      (addToHistory img p).historyIndex =
        ((addToHistory img p).imageHistory.length : ℤ) - 1) ∧
    ((procUndo p).historyIndex =
        (if 0 < p.historyIndex then p.historyIndex - 1 else p.historyIndex)) ∧
    ((procRedo p).historyIndex =
        (if p.historyIndex < (p.imageHistory.length : ℤ) - 1 then
          p.historyIndex + 1 else p.historyIndex)) := by
  have hslice : ∀ (α : Type) (l : List α) (e : ℤ), -1 ≤ e →
      jsSlice0 l (e + 1) = l.take (e + 1).toNat := by
    intro α l e he
    rw [jsSlice0, if_neg (by omega)]
  refine ⟨⟨?_, ?_⟩, ⟨?_, ?_⟩, ⟨?_, ?_⟩, ?_, ?_, ⟨?_, ?_⟩, ?_, ?_⟩
  · show jsSlice0 s.annotationHistory (s.historyIndex + 1) ++ _ = _
    rw [hslice _ _ _ hs]
  · rfl
  · show jsSlice0 s.annotationHistory (s.historyIndex + 1) ++ _ = _
    rw [hslice _ _ _ hs]
  · rfl
  · show jsSlice0 s.annotationHistory (s.historyIndex + 1) ++ _ = _
    rw [hslice _ _ _ hs]
  · rfl
  · rw [handleUndo]
    by_cases hc : 0 < s.historyIndex
    · rw [if_pos hc, if_pos hc]
    · rw [if_neg hc, if_neg hc]
  · rw [handleRedo]
    by_cases hc : s.historyIndex < (s.annotationHistory.length : ℤ) - 1
    · rw [if_pos hc, if_pos hc]
    · rw [if_neg hc, if_neg hc]
  · show jsSlice0 p.imageHistory (p.historyIndex + 1) ++ _ = _
    rw [hslice _ _ _ hp]
  · rfl
  · rw [procUndo]
    by_cases hc : 0 < p.historyIndex
    · rw [if_pos hc, if_pos hc]
    · rw [if_neg hc, if_neg hc]
  · rw [procRedo]
    by_cases hc : p.historyIndex < (p.imageHistory.length : ℤ) - 1
    · rw [if_pos hc, if_pos hc]
    · rw [if_neg hc, if_neg hc]

/-- C5 (witness): the history contract instantiated at a concrete
wrapper state with one history entry, pointer 0, and a concrete image
page state with pointer -1. -/
theorem history_stack_contract_witness :
    (-1 : ℤ) ≤ (0 : ℤ) ∧ (-1 : ℤ) ≤ (-1 : ℤ) ∧
    (handleAnnotationAdd (createLeader 3 300 "leader" ⟨2, 2⟩ defaultStyles)
      { annotations := [createLeader 1 100 "leader" ⟨0, 0⟩ defaultStyles],
        annotationHistory := [[createLeader 1 100 "leader" ⟨0, 0⟩ defaultStyles]],
        historyIndex := 0 }).annotationHistory =
      [[createLeader 1 100 "leader" ⟨0, 0⟩ defaultStyles],
       [createLeader 1 100 "leader" ⟨0, 0⟩ defaultStyles,
        createLeader 3 300 "leader" ⟨2, 2⟩ defaultStyles]] ∧
    (addToHistory ⟨"a.png", "a", 8, 8⟩
      { imageHistory := [], historyIndex := -1, processedImage := none }).imageHistory =
      [⟨"a.png", "a", 8, 8⟩] := by
  have h := history_stack_contract
    { annotations := [createLeader 1 100 "leader" ⟨0, 0⟩ defaultStyles],
      annotationHistory := [[createLeader 1 100 "leader" ⟨0, 0⟩ defaultStyles]],
      historyIndex := 0 }
    (createLeader 3 300 "leader" ⟨2, 2⟩ defaultStyles)
    (createLeader 3 300 "leader" ⟨2, 2⟩ defaultStyles) 0
    { imageHistory := [], historyIndex := -1, processedImage := none }
    ⟨"a.png", "a", 8, 8⟩ (by norm_num) (by norm_num)
  refine ⟨by norm_num, by norm_num, ?_, ?_⟩
  · rw [h.1.1]
    rfl
  · rw [h.2.2.2.2.2.1.1]
    rfl

/-- The annotations-change effect never touches the wrapper store. -/
theorem annotationsChangeEffect_wrapper (t : CanvasSystem) :
    (annotationsChangeEffect t).wrapper = t.wrapper := by
  rw [annotationsChangeEffect]
  by_cases hc : t.wrapper.annotations.length = 0
  · rw [if_pos hc]
  · rw [if_neg hc]

/-- The canvas after a non-empty annotations change: the previous
objects followed by one fresh clone per owned object. -/
theorem annotationsChangeEffect_canvas (t : CanvasSystem)
    (h : ¬ t.wrapper.annotations.length = 0) :
    (annotationsChangeEffect t).canvasObjects = t.canvasObjects ++
      (List.range ((t.wrapper.annotations.map fun a => a.objects.length).sum)).map
        fun i => t.nextObjId + i := by
  rw [annotationsChangeEffect, if_neg h]

theorem twoLeaderSystem_fields :
    twoLeaderSystem.wrapper.annotations = [leaderA, leaderB] ∧
    twoLeaderSystem.canvasObjects = [10, 11, 100, 101, 20, 21, 102, 103, 104, 105] ∧
    twoLeaderSystem.currentAnn = some leaderB ∧
    twoLeaderSystem.nextObjId = 106 :=
  ⟨rfl, by decide, rfl, rfl⟩

/-- C3 (counterexample): already the first add breaks the invariant —
the annotations-change effect puts unowned clones (100, 101) of
`leaderA`'s shapes on the canvas; deleting a shape of `leaderA` (not the
most recently created annotation) removes the shape from the canvas but
leaves `leaderA`'s record in the store; deleting a shape of the current
`leaderB` removes `leaderB`'s record but leaves its second shape 21
(and all clones) orphaned on the canvas. -/
theorem orphaned_shape_counterexample :
    ¬ StoreCanvasConsistent (placeAnnotationRecord leaderA initialCanvasSystem) ∧
    ((removeCanvasObject 10 twoLeaderSystem).wrapper.annotations.map
        fun a => a.id) = [1, 2] ∧
    10 ∉ (removeCanvasObject 10 twoLeaderSystem).canvasObjects ∧
    ¬ StoreCanvasConsistent (removeCanvasObject 10 twoLeaderSystem) ∧
    ((removeCanvasObject 20 twoLeaderSystem).wrapper.annotations.map
        fun a => a.id) = [1] ∧
    21 ∈ (removeCanvasObject 20 twoLeaderSystem).canvasObjects ∧
    ¬ StoreCanvasConsistent (removeCanvasObject 20 twoLeaderSystem) := by
  refine ⟨?_, rfl, by decide, ?_, rfl, by decide, ?_⟩
  · intro hcons
    have h100 : (100 : ℕ) ∈ (placeAnnotationRecord leaderA initialCanvasSystem).canvasObjects := by
      show (100 : ℕ) ∈ [10, 11, 100, 101]
      decide
    obtain ⟨a, hamem, haobj⟩ := hcons.2 100 h100
    have hamem2 : a ∈ [leaderA] := hamem
    have ha : a = leaderA := List.mem_singleton.mp hamem2
    rw [ha] at haobj
    have haobj2 : (100 : ℕ) ∈ ([10, 11] : List ℕ) := haobj
    simp at haobj2
  · intro hcons
    have hmemA : leaderA ∈ (removeCanvasObject 10 twoLeaderSystem).wrapper.annotations := by
      show leaderA ∈ [leaderA, leaderB]
      exact List.mem_cons_self _ _
    have h10A : (10 : ℕ) ∈ leaderA.objects := by decide
    have hcanvas := hcons.1 leaderA hmemA 10 h10A
    have hmem2 : (10 : ℕ) ∈ ([11, 100, 101, 20, 21, 102, 103, 104, 105] : List ℕ) :=
      hcanvas
    simp at hmem2
  · intro hcons
    have h21 : (21 : ℕ) ∈ (removeCanvasObject 20 twoLeaderSystem).canvasObjects := by
      show (21 : ℕ) ∈ [10, 11, 100, 101, 21, 102, 103, 104, 105, 106, 107]
      decide
    obtain ⟨a, hamem, haobj⟩ := hcons.2 21 h21
    have hamem2 : a ∈ [leaderA] := hamem
    have ha : a = leaderA := List.mem_singleton.mp hamem2
    rw [ha] at haobj
    have haobj2 : (21 : ℕ) ∈ ([10, 11] : List ℕ) := haobj
    simp at haobj2

/-- C3 (amended): the store–shape correspondence is not maintained by
any mutation.  Removing a shape of a non-current annotation (or with no
current annotation) removes exactly that shape and leaves the store
unchanged, orphaning the owning record; removing a shape of the current
annotation deletes exactly that record from the store while the
record's other shapes stay on the canvas; and every add re-runs the
annotations-change effect, which puts fresh unowned clone shapes of
every stored record's objects on the canvas, so already a single add
leaves the system inconsistent. -/
theorem deletion_only_affects_current
    (s : CanvasSystem) (o : ℕ) (a : AnnotationRecord) :
    (∀ ca, s.currentAnn = some ca → o ∉ ca.objects →
      (removeCanvasObject o s).wrapper.annotations = s.wrapper.annotations ∧
      (removeCanvasObject o s).canvasObjects = s.canvasObjects.erase o) ∧
    (s.currentAnn = none →
      (removeCanvasObject o s).wrapper.annotations = s.wrapper.annotations ∧
      (removeCanvasObject o s).canvasObjects = s.canvasObjects.erase o) ∧
    (∀ ca, s.currentAnn = some ca → o ∈ ca.objects →
      (removeCanvasObject o s).wrapper.annotations =
        s.wrapper.annotations.filter fun ann => ann.id ≠ ca.id) ∧
    ((∀ b ∈ s.wrapper.annotations, ∀ ob ∈ b.objects, ob < s.nextObjId) →
      (∀ ob ∈ a.objects, ob < s.nextObjId) →
      a.objects ≠ [] →
      ¬ StoreCanvasConsistent (placeAnnotationRecord a s)) := by
  refine ⟨?_, ?_, ?_, ?_⟩
  · intro ca hcur hmem
    simp only [removeCanvasObject, hcur]
    rw [if_neg hmem]
    refine ⟨?_, ?_⟩ <;> first | rfl | trivial
  · intro hcur
    simp only [removeCanvasObject, hcur]
    refine ⟨?_, ?_⟩ <;> first | rfl | trivial
  · intro ca hcur hmem
    simp only [removeCanvasObject, hcur]
    rw [if_pos hmem, annotationsChangeEffect_wrapper]
    rfl
  · intro hbound habound hne hcons
    have hmid : placeAnnotationRecord a s = annotationsChangeEffect
        { wrapper := handleAnnotationAdd a s.wrapper,
          canvasObjects := s.canvasObjects ++ a.objects,
          currentAnn := some a, nextObjId := s.nextObjId } := rfl
    have hlist : (handleAnnotationAdd a s.wrapper).annotations
        = s.wrapper.annotations ++ [a] := rfl
    have hlen0 : ¬ (handleAnnotationAdd a s.wrapper).annotations.length = 0 := by
      rw [hlist]
      simp
    have htot : 0 < ((handleAnnotationAdd a s.wrapper).annotations.map
        fun b => b.objects.length).sum := by
      have hmem : a.objects.length ∈ ((handleAnnotationAdd a s.wrapper).annotations.map
          fun b => b.objects.length) := by
        rw [hlist]
        simp
      have hle := List.single_le_sum (fun x _ => Nat.zero_le x) _ hmem
      have hpos : 0 < a.objects.length := List.length_pos.mpr hne
      omega
    have hclone : s.nextObjId ∈ (placeAnnotationRecord a s).canvasObjects := by
      rw [hmid, annotationsChangeEffect_canvas _ hlen0]
      refine List.mem_append.mpr (Or.inr ?_)
      refine List.mem_map.mpr ⟨0, List.mem_range.mpr htot, ?_⟩
      simp
    obtain ⟨b, hbmem, hbobj⟩ := hcons.2 s.nextObjId hclone
    have hbmem2 : b ∈ s.wrapper.annotations ++ [a] := by
      rw [hmid, annotationsChangeEffect_wrapper] at hbmem
      exact hbmem
    rcases List.mem_append.mp hbmem2 with hL | hR
    · exact absurd (hbound b hL _ hbobj) (lt_irrefl _)
    · rw [List.mem_singleton.mp hR] at hbobj
      exact absurd (habound _ hbobj) (lt_irrefl _)

/-- C3 (witness): the amended behavior at the concrete two-leader
system, discharging each hypothesis — the delete branch on `leaderB`'s
shape 20, the no-delete branch on `leaderA`'s shape 10, and the
inconsistency created by a further add. -/
theorem deletion_only_affects_current_witness :
    twoLeaderSystem.currentAnn = some leaderB ∧
    (20 : ℕ) ∈ leaderB.objects ∧ (10 : ℕ) ∉ leaderB.objects ∧
    leaderA.objects ≠ [] ∧
    (removeCanvasObject 20 twoLeaderSystem).wrapper.annotations =
      twoLeaderSystem.wrapper.annotations.filter (fun ann => ann.id ≠ leaderB.id) ∧
    (removeCanvasObject 10 twoLeaderSystem).wrapper.annotations =
      twoLeaderSystem.wrapper.annotations ∧
    (removeCanvasObject 10 twoLeaderSystem).canvasObjects =
      twoLeaderSystem.canvasObjects.erase 10 ∧
    ¬ StoreCanvasConsistent (placeAnnotationRecord leaderA twoLeaderSystem) := by
  have hcur := twoLeaderSystem_fields.2.2.1
  refine ⟨hcur, by decide, by decide, by decide, ?_, ?_, ?_, ?_⟩
  · exact (deletion_only_affects_current twoLeaderSystem 20 leaderA).2.2.1 leaderB
      hcur (by decide)
  · exact ((deletion_only_affects_current twoLeaderSystem 10 leaderA).1 leaderB
      hcur (by decide)).1
  · exact ((deletion_only_affects_current twoLeaderSystem 10 leaderA).1 leaderB
      hcur (by decide)).2
  · exact (deletion_only_affects_current twoLeaderSystem 10 leaderA).2.2.2
      (by decide) (by decide) (by decide)

/-- While drawing, a drag through `moves` appends them in order. -/
theorem cloudMoves_collect (moves : List Point) :
    ∀ acc : List Point,
      moves.foldl (fun c p => cloudMouseMove p c) ⟨true, acc⟩ = ⟨true, acc ++ moves⟩ := by
  induction moves with
  | nil => intro acc; simp
  | cons p ps ih =>
    intro acc
    show ps.foldl _ (cloudMouseMove p ⟨true, acc⟩) = _
    rw [show cloudMouseMove p ⟨true, acc⟩ = ⟨true, acc ++ [p]⟩ from rfl, ih (acc ++ [p])]
    simp

/-- C7: a revision-cloud interaction that collected fewer than 3 points
(press point plus drag points) emits no record — silently, the result is
just `none` — while one that collected exactly 5 points emits exactly
one record whose point list is the full collected list. -/
theorem revision_cloud_contract (clock pathId : ℕ) (tool : String) (st : Styles)
    (p0 : Point) (moves : List Point) :
    (moves.length + 1 < 3 →
      cloudInteraction clock pathId tool st p0 moves = none) ∧
    (moves.length + 1 = 5 →
      cloudInteraction clock pathId tool st p0 moves =
        some { id := clock, type := "revision-cloud", tool := tool,
               objects := [pathId], data := .cloud (p0 :: moves), styles := st }) := by
  have hrun : moves.foldl (fun c p => cloudMouseMove p c)
      (cloudMouseDown p0 initialCloudState) = ⟨true, p0 :: moves⟩ := by
    rw [show cloudMouseDown p0 initialCloudState = ⟨true, [p0]⟩ from rfl,
      cloudMoves_collect moves [p0]]
    simp
  constructor
  · intro hlt
    rw [cloudInteraction, hrun, cloudMouseUp, finalizeRevisionCloud,
      if_pos (by simpa using hlt)]
  · intro h5
    rw [cloudInteraction, hrun, cloudMouseUp, finalizeRevisionCloud,
      if_neg (by simp only [List.length_cons]; omega)]

/-- C7 (witness): a 2-point interaction yields no record; a 5-point
interaction yields the single record with all 5 points. -/
theorem revision_cloud_contract_witness :
    (([(⟨1, 1⟩ : Point)] : List Point).length + 1 < 3 ∧
      cloudInteraction 7 70 "revision-cloud" defaultStyles ⟨0, 0⟩ [⟨1, 1⟩] = none) ∧
    (([⟨1, 1⟩, ⟨2, 2⟩, ⟨3, 3⟩, ⟨4, 4⟩] : List Point).length + 1 = 5 ∧
      cloudInteraction 7 70 "revision-cloud" defaultStyles ⟨0, 0⟩
          [⟨1, 1⟩, ⟨2, 2⟩, ⟨3, 3⟩, ⟨4, 4⟩] =
        some { id := 7, type := "revision-cloud", tool := "revision-cloud",
               objects := [70],
               data := .cloud (⟨0, 0⟩ :: [⟨1, 1⟩, ⟨2, 2⟩, ⟨3, 3⟩, ⟨4, 4⟩]),
               styles := defaultStyles }) :=
  ⟨⟨by norm_num,
    (revision_cloud_contract 7 70 "revision-cloud" defaultStyles ⟨0, 0⟩
      [⟨1, 1⟩]).1 (by norm_num)⟩,
   ⟨by norm_num,
    (revision_cloud_contract 7 70 "revision-cloud" defaultStyles ⟨0, 0⟩
      [⟨1, 1⟩, ⟨2, 2⟩, ⟨3, 3⟩, ⟨4, 4⟩]).2 (by norm_num)⟩⟩

/-- The toolbar can never change `dimensionPrecision`: every reachable
style record keeps the default value 2. -/
theorem applyStyleEdits_precision (es : List ToolbarStyleEdit) :
    (applyStyleEdits es defaultStyles).dimensionPrecision = 2 := by
  suffices h : ∀ st : Styles,
      (applyStyleEdits es st).dimensionPrecision = st.dimensionPrecision by
    rw [h]
    rfl
  induction es with
  | nil => intro st; rfl
  | cons e es ih =>
    intro st
    show (applyStyleEdits es (handleStyleChange e st)).dimensionPrecision = _
    rw [ih]
    cases e <;> rfl

/-- C6: for every dimension interaction under any toolbar-reachable
style record, the emitted record stores the exact Euclidean distance of
the two click points and the label shows that distance rounded to
`dimensionPrecision` decimal digits; for (0,0)-(3,4) the distance is 5
and the label shows 500 hundredths, i.e. `5.00`. -/
theorem dimension_distance_display (clock objBase : ℕ) (tool : String)
    (start stop : Point) (es : List ToolbarStyleEdit) :
    dimDistance (createDimension clock objBase tool start stop
        (applyStyleEdits es defaultStyles)).data = EuclideanDistance start stop ∧
    createDimensionText start stop (applyStyleEdits es defaultStyles) =
      ((applyStyleEdits es defaultStyles).dimensionPrecision,
       jsToFixed (EuclideanDistance start stop)
         (applyStyleEdits es defaultStyles).dimensionPrecision) ∧
    EuclideanDistance ⟨0, 0⟩ ⟨3, 4⟩ = 5 ∧
    createDimensionText ⟨0, 0⟩ ⟨3, 4⟩ (applyStyleEdits es defaultStyles) = (2, 500) := by
  have hp := applyStyleEdits_precision es
  have hd : EuclideanDistance ⟨0, 0⟩ ⟨3, 4⟩ = 5 := by
    rw [EuclideanDistance]
    push_cast
    rw [show ((3 : ℝ) - 0) ^ 2 + ((4 : ℝ) - 0) ^ 2 = 5 ^ 2 by norm_num]
    exact Real.sqrt_sq (by norm_num)
  have hfix : jsToFixed 5 2 = 500 := by
    rw [jsToFixed]
    rw [show (5 : ℝ) * 10 ^ 2 + 1 / 2 = 1001 / 2 by norm_num]
    rw [Int.floor_eq_iff]
    constructor <;> norm_num
  refine ⟨rfl, ?_, hd, ?_⟩
  · simp only [createDimensionText, hp]
    norm_num
  · simp only [createDimensionText, hp, hd]
    norm_num [hfix]

/-- C4 (counterexample): two dimension records created in the same
millisecond (same `Date.now()` value 1000) are distinct records — they
have different fabric objects and different geometry — yet share the
same id, because annotation ids are the bare timestamp with no random
suffix. -/
theorem annotation_id_collision_counterexample :
    (createDimension 1000 100 "linear" ⟨0, 0⟩ ⟨1, 0⟩ defaultStyles).id =
      (createDimension 1000 200 "linear" ⟨2, 0⟩ ⟨3, 0⟩ defaultStyles).id ∧
    createDimension 1000 100 "linear" ⟨0, 0⟩ ⟨1, 0⟩ defaultStyles ≠
      createDimension 1000 200 "linear" ⟨2, 0⟩ ⟨3, 0⟩ defaultStyles := by
  refine ⟨rfl, ?_⟩
  intro h
  have hobj : ([100, 100 + 1] : List ℕ) = [200, 200 + 1] :=
    congrArg AnnotationRecord.objects h
  simp at hobj

/-- C4 (amended): annotation ids are the bare creation timestamp
(`Date.now()`), unique only across distinct milliseconds; capture ids
are the timestamp string plus the random suffix; and ids are never
changed afterwards — the update emitted by `handleObjectModified` keeps
the id, and applying it through `handleAnnotationUpdate` leaves the
store's id list unchanged. -/
theorem id_assignment_spec (clock objBase : ℕ) (tool : String)
    (start stop p : Point) (st : Styles) (ts img rand : String)
    (m : CaptureMetadataArgs) (cs : CaptureStore) (ws : WrapperState)
    (ca : AnnotationRecord) (objs : List ℕ) :
    (createDimension clock objBase tool start stop st).id = clock ∧
    (createLeader clock objBase tool p st).id = clock ∧
    (addCapture clock ts img rand m cs).2.id = toString clock ++ rand ∧
    (handleObjectModified ca objs).id = ca.id ∧
    ((handleAnnotationUpdate ca.id (handleObjectModified ca objs) ws).annotations.map
        fun a => a.id) = ws.annotations.map fun a => a.id := by
  refine ⟨rfl, rfl, rfl, rfl, ?_⟩
  show ((ws.annotations.map fun ann =>
      if ann.id = ca.id then handleObjectModified ca objs else ann).map
        fun a => a.id) = _
  rw [List.map_map]
  apply List.map_congr_left
  intro a _
  simp only [Function.comp_apply]
  by_cases h : a.id = ca.id
  · rw [if_pos h]
    exact h.symm
  · rw [if_neg h]

/-- C9: a failing read of the persisted capture list (storage throwing,
missing key, or corrupted JSON) falls back to the empty in-memory
collection; a failing write is logged and swallowed, leaving the
in-memory capture list untouched. -/
theorem storage_failure_contract (l : List Capture) (st : CaptureStore) :
    loadCaptures .throwsOnRead = [] ∧
    loadCaptures .corrupt = [] ∧
    loadCaptures .missing = [] ∧
    loadCaptures (.ok l) = l ∧
    (∀ w : StorageWriteOutcome, (saveCaptures st w).1 = st) ∧
    (saveCaptures st .throwsOnWrite).2 = true ∧
    (saveCaptures st .ok).2 = false := by
  refine ⟨rfl, rfl, rfl, rfl, ?_, rfl, rfl⟩
  intro w
  cases w <;> rfl

/-- Reading a pointwise-built buffer inside its range gives the pointwise value. -/
theorem getD_buildImage (n : ℕ) (f : ℕ → ℕ) (j : ℕ) (hj : j < n) :
    (buildImage n f).getD j 0 = f j := by
  rw [buildImage, List.getD_eq_getElem?_getD, List.getElem?_map,
    List.getElem?_range hj]
  rfl

/-- A pointwise filter that copies the input at every alpha index
preserves every alpha entry. -/
theorem alpha_buildImage (d : List ℕ) (f : ℕ → ℕ) (j : ℕ)
    (hf : j % 4 = 3 → f j = d.getD j 0) (hj : j % 4 = 3) :
    (buildImage d.length f).getD j 0 = d.getD j 0 := by
  by_cases hlt : j < d.length
  · rw [getD_buildImage _ _ _ hlt, hf hj]
  · have hlen : (buildImage d.length f).length = d.length := by
      simp [buildImage]
    rw [List.getD_eq_default _ _ (by omega : d.length ≤ j),
      List.getD_eq_default _ _ (by rw [hlen]; omega)]

theorem floor_of_grayscale_example : ⌊(621 / 5 : ℚ)⌋ = 124 := by
  rw [Int.floor_eq_iff]
  constructor <;> norm_num

theorem u8store_grayscale_example : u8store (621 / 5) = 124 := by
  rw [u8store, if_neg (by norm_num), if_neg (by norm_num),
    if_pos (by rw [floor_of_grayscale_example]; norm_num),
    floor_of_grayscale_example]
  rfl

theorem luminance_grayscale_example : luminance [200, 100, 50, 255] 0 = 621 / 5 := by
  rw [luminance]
  norm_num

/-- C8: every color channel written by the grayscale filter carries the
clamped-rounded luminance `0.299 R + 0.587 G + 0.114 B` of its pixel,
the three channels of a pixel are equal, and the concrete pixel
(200, 100, 50) becomes (124, 124, 124) with its alpha untouched. -/
theorem grayscale_spec (d : List ℕ) (j : ℕ) (hj : j < d.length) (hch : j % 4 ≠ 3) :
    (grayscale d).getD j 0 = u8store (luminance d (j / 4)) ∧
    (∀ p : ℕ, 4 * p + 2 < d.length →
      (grayscale d).getD (4 * p) 0 = (grayscale d).getD (4 * p + 1) 0 ∧
      (grayscale d).getD (4 * p + 1) 0 = (grayscale d).getD (4 * p + 2) 0) ∧
    grayscale [200, 100, 50, 255] = [124, 124, 124, 255] := by
  refine ⟨?_, ?_, ?_⟩
  · simp only [grayscale]
    rw [getD_buildImage _ _ _ hj, if_neg hch]
  · intro p hp
    have h0 : 4 * p / 4 = p := by omega
    have h1 : (4 * p + 1) / 4 = p := by omega
    have h2 : (4 * p + 2) / 4 = p := by omega
    constructor
    · simp only [grayscale]
      rw [getD_buildImage _ _ _ (by omega), getD_buildImage _ _ _ (by omega),
        if_neg (by omega), if_neg (by omega), h0, h1]
    · simp only [grayscale]
      rw [getD_buildImage _ _ _ (by omega), getD_buildImage _ _ _ (by omega),
        if_neg (by omega), if_neg (by omega), h1, h2]
  · simp only [grayscale, buildImage]
    rw [show List.range ([200, 100, 50, 255] : List ℕ).length = [0, 1, 2, 3] from rfl]
    simp only [List.map_cons, List.map_nil]
    norm_num [luminance_grayscale_example, u8store_grayscale_example]

/-- C8 (witness): the red channel of the pixel (200, 100, 50, 255) is
written as the stored luminance, concretely 124. -/
theorem grayscale_spec_witness :
    (0 : ℕ) < ([200, 100, 50, 255] : List ℕ).length ∧ (0 : ℕ) % 4 ≠ 3 ∧
    (grayscale [200, 100, 50, 255]).getD 0 0 =
      u8store (luminance [200, 100, 50, 255] 0) ∧
    u8store (luminance [200, 100, 50, 255] 0) = 124 := by
  refine ⟨by norm_num, by norm_num, ?_, ?_⟩
  · exact (grayscale_spec [200, 100, 50, 255] 0 (by norm_num) (by norm_num)).1
  · rw [luminance_grayscale_example, u8store_grayscale_example]

/-- C10: every pixel-buffer filter of `ImageProcessor` — grayscale,
invert, brightness/contrast, threshold, median, Sobel, histogram
equalization, noise reduction, convolution (hence sharpen), erosion and
dilation — leaves every alpha entry (index 3 mod 4) of the buffer
unchanged; only R, G, B entries are ever written. -/
theorem filters_preserve_alpha (d : List ℕ) (w h k : ℕ) (b c v : ℚ)
    (kernel : List (List ℚ)) (j : ℕ) (hj : j % 4 = 3) :
    (grayscale d).getD j 0 = d.getD j 0 ∧
    (invert d).getD j 0 = d.getD j 0 ∧
    (adjustBrightnessContrast b c d).getD j 0 = d.getD j 0 ∧
    (threshold v d).getD j 0 = d.getD j 0 ∧
    (medianFilter k w h d).getD j 0 = d.getD j 0 ∧
    (sobelEdgeDetection w h d).getD j 0 = d.getD j 0 ∧
    (histogramEqualization d).getD j 0 = d.getD j 0 ∧
    (noiseReduction w h d).getD j 0 = d.getD j 0 ∧
    (applyConvolution kernel w h d).getD j 0 = d.getD j 0 ∧
    (sharpen w h d).getD j 0 = d.getD j 0 ∧
    (erosion k w h d).getD j 0 = d.getD j 0 ∧
    (dilation k w h d).getD j 0 = d.getD j 0 := by
  refine ⟨?_, ?_, ?_, ?_, ?_, ?_, ?_, ?_, ?_, ?_, ?_, ?_⟩ <;>
    exact alpha_buildImage d _ j (fun h2 => if_pos h2) hj

/-- C10 (witness): all eleven filters applied to the one-pixel buffer
(9, 9, 9, 77) keep the alpha entry 77 at index 3. -/
theorem filters_preserve_alpha_witness :
    (3 : ℕ) % 4 = 3 ∧
    ((grayscale [9, 9, 9, 77]).getD 3 0 = ([9, 9, 9, 77] : List ℕ).getD 3 0 ∧
    (invert [9, 9, 9, 77]).getD 3 0 = ([9, 9, 9, 77] : List ℕ).getD 3 0 ∧
    (adjustBrightnessContrast 5 2 [9, 9, 9, 77]).getD 3 0 =
      ([9, 9, 9, 77] : List ℕ).getD 3 0 ∧
    (threshold 128 [9, 9, 9, 77]).getD 3 0 = ([9, 9, 9, 77] : List ℕ).getD 3 0 ∧
    (medianFilter 3 1 1 [9, 9, 9, 77]).getD 3 0 = ([9, 9, 9, 77] : List ℕ).getD 3 0 ∧
    (sobelEdgeDetection 1 1 [9, 9, 9, 77]).getD 3 0 = ([9, 9, 9, 77] : List ℕ).getD 3 0 ∧
    (histogramEqualization [9, 9, 9, 77]).getD 3 0 = ([9, 9, 9, 77] : List ℕ).getD 3 0 ∧
    (noiseReduction 1 1 [9, 9, 9, 77]).getD 3 0 = ([9, 9, 9, 77] : List ℕ).getD 3 0 ∧
    (applyConvolution sharpenKernel 1 1 [9, 9, 9, 77]).getD 3 0 =
      ([9, 9, 9, 77] : List ℕ).getD 3 0 ∧
    (sharpen 1 1 [9, 9, 9, 77]).getD 3 0 = ([9, 9, 9, 77] : List ℕ).getD 3 0 ∧
    (erosion 3 1 1 [9, 9, 9, 77]).getD 3 0 = ([9, 9, 9, 77] : List ℕ).getD 3 0 ∧
    (dilation 3 1 1 [9, 9, 9, 77]).getD 3 0 = ([9, 9, 9, 77] : List ℕ).getD 3 0) :=
  ⟨rfl, filters_preserve_alpha [9, 9, 9, 77] 1 1 3 5 2 128 sharpenKernel 3 rfl⟩

end Envision

